import Mathlib

/-!
Shallow embedding of the wallet-node sync core of `src/wallet/wallet_node.py`
(chia-blockchain light wallet).  Hashes, byte strings and peer hosts are
modelled as `Nat`; Python dicts are modelled as association lists with a
replace-on-insert operation; `asyncio.Event` objects are modelled as a `Bool`
set-flag.  External collaborators (the `WalletStateManager` facade) are
modelled from the spec where noted.
-/

/-- Association-list lookup (Python `dict[k]` / `k in dict`). -/
def lookupA {α : Type} : List (Nat × α) → Nat → Option α
  | [], _ => none
  | (k, v) :: rest, h => if k = h then some v else lookupA rest h

/-- Remove every binding of key `k` (Python `del dict[k]`). -/
def eraseA {α : Type} (m : List (Nat × α)) (k : Nat) : List (Nat × α) :=
  m.filter (fun p => decide (p.1 ≠ k))

/-- Replace-on-insert (Python `dict[k] = v`). -/
def insertA {α : Type} (m : List (Nat × α)) (k : Nat) (v : α) : List (Nat × α) :=
  (k, v) :: eraseA m k

/-- `src.wallet.block_record.BlockRecord` (the fields the core touches). -/
structure BlockRecord where
  header_hash : Nat
  prev_header_hash : Nat
  height : Nat
  weight : Nat
  additions : Option (List Nat)
  removals : Option (List Nat)
  total_iters : Option Nat
  new_challenge_hash : Option Nat
  timestamp : Nat
deriving DecidableEq

/-- `src.types.header_block.HeaderBlock`, flattened to the fields the wallet
node reads (`header.data.total_iters`, `challenge.get_hash()`,
`header.data.timestamp`, the self-hash and chain position). -/
structure HeaderBlock where
  height : Nat
  weight : Nat
  prev_header_hash : Nat
  header_hash : Nat
  total_iters : Nat
  challenge_hash : Nat
  timestamp : Nat
deriving DecidableEq

/-- `wallet_protocol.RespondHeader`. -/
structure RespondHeader where
  header_block : HeaderBlock
  transactions_filter : Option Nat
deriving DecidableEq

/-- `src.full_node.blockchain.ReceiveBlockResult`. -/
inductive ReceiveBlockResult
  | DISCONNECTED_BLOCK
  | INVALID_BLOCK
  | ALREADY_HAVE_BLOCK
  | ADDED_AS_ORPHAN
  | ADDED_TO_HEAD
deriving DecidableEq

/-- `src.wallet.transaction_record.TransactionRecord` (resend-relevant part). -/
structure TransactionRecord where
  spend_bundle : Option Nat
deriving DecidableEq

/-- `src.wallet.wallet_action.WalletAction`, with its decoded
`request_generator` payload. -/
structure WalletAction where
  name : String
  height : Nat
  header_hash : Nat
deriving DecidableEq

/-- The slice of the external `WalletStateManager` the wallet node reads:
committed block records, the LCA pointer, the sync flag, and the stores the
resend loop enumerates. -/
structure WSM where
  block_records : List (Nat × BlockRecord)
  lca : Nat
  sync_mode : Bool
  tx_not_sent : List TransactionRecord
  pending_actions : List WalletAction
deriving DecidableEq

/-- Modelled from the spec: `WalletStateManager.receive_block` (the repository
code for the state manager is not under `src/`; only its facade is specified).
Per the spec's result set: a block already present yields `ALREADY_HAVE`, a
block whose parent is not committed yields `DISCONNECTED`, and otherwise the
record is committed, becoming the new head exactly when its weight exceeds the
current LCA weight. -/
def receive_block (w : WSM) (rec : BlockRecord) : ReceiveBlockResult × WSM :=
  if (lookupA w.block_records rec.header_hash).isSome then
    (ReceiveBlockResult.ALREADY_HAVE_BLOCK, w)
  else if (lookupA w.block_records rec.prev_header_hash).isNone then
    (ReceiveBlockResult.DISCONNECTED_BLOCK, w)
  else
    let w' := { w with block_records := insertA w.block_records rec.header_hash rec }
    match lookupA w.block_records w.lca with
    | some lca_rec =>
      if lca_rec.weight < rec.weight then
        (ReceiveBlockResult.ADDED_TO_HEAD, { w' with lca := rec.header_hash })
      else
        (ReceiveBlockResult.ADDED_AS_ORPHAN, w')
    | none => (ReceiveBlockResult.ADDED_AS_ORPHAN, w')

/-- The mutable state of `WalletNode` that the embedded operations touch. -/
structure WalletState where
  cached_blocks : List (Nat × (BlockRecord × HeaderBlock × Option Nat))
  future_block_hashes : List (Nat × Nat)
  proof_hashes : List (Nat × Option Nat × Option Nat)
  header_hashes : List Nat
  header_hashes_error : Bool
  potential_blocks_received : List (Nat × Bool)
  potential_header_hashes : List (Nat × Nat)
  short_sync_threshold : Nat
  shut_down : Bool
  wallet_state_manager : Option WSM
  backup_initialized : Bool
  has_server : Bool
deriving DecidableEq

/-- Network messages the core emits. -/
inductive Msg
  | requestHeader (height : Nat) (header_hash : Nat)
  | requestAdditions (height : Nat) (header_hash : Nat) (additions : List Nat)
  | sendTransaction (bundle : Nat)
  | requestGenerator (height : Nat) (header_hash : Nat)
deriving DecidableEq

/-- `WalletNode._block_finished` (wallet_node.py lines 694-746).  Returns the
updated state and the optional deferred `RespondHeader` for a queued
successor.  The Python `assert`s on the preconditions are not modelled (an
`AssertionError` leaves the caches untouched, as does returning);  the
Python `KeyError` on a missing cached successor is modelled as ending with
no deferred response (the caches are in the same state either way). -/
def block_finished (st : WalletState) (block_record : BlockRecord)
    (header_block : HeaderBlock) (transactions_filter : Option Nat) :
    WalletState × Option RespondHeader :=
  match st.wallet_state_manager with
  | none => (st, none)
  | some w =>
    if st.backup_initialized = false then (st, none)
    else
      let pr := receive_block w block_record
      let st1 : WalletState := { st with wallet_state_manager := some pr.2 }
      match pr.1 with
      | ReceiveBlockResult.DISCONNECTED_BLOCK => (st1, none)
      | ReceiveBlockResult.INVALID_BLOCK => (st1, none)
      | ReceiveBlockResult.ALREADY_HAVE_BLOCK => (st1, none)
      | res =>
        let kept := st1.cached_blocks.filter
          (fun p => decide (block_record.height ≤ p.2.1.height + 100))
        let st2 : WalletState :=
          if res = ReceiveBlockResult.ADDED_TO_HEAD ∧ pr.2.sync_mode = false then
            { st1 with cached_blocks := kept }
          else st1
        let deferred : Option RespondHeader :=
          (lookupA st2.future_block_hashes block_record.header_hash).bind
            (fun new_hh => (lookupA st2.cached_blocks new_hh).map
              (fun c => ⟨c.2.1, c.2.2⟩))
        (st2, deferred)

/-- The sync-mode bookkeeping at the top of each `_respond_header` iteration
(wallet_node.py lines 783-786): if syncing and the height has a waiting
signal, set the signal and record the header hash for that height. -/
def mark_potential (st : WalletState) (sync_mode : Bool) (block : HeaderBlock) :
    WalletState :=
  if sync_mode then
    if (lookupA st.potential_blocks_received block.height).isSome then
      { st with
        potential_blocks_received :=
          insertA st.potential_blocks_received block.height true,
        potential_header_hashes :=
          insertA st.potential_header_hashes block.height block.header_hash }
    else st
  else st

/-- The sync-mark plus unconditional cache insertion performed by every
`_respond_header` iteration that passes the already-committed and height
checks (wallet_node.py lines 783-793). -/
def step_cache (st : WalletState) (sync_mode : Bool) (block : HeaderBlock)
    (block_record : BlockRecord) (tf : Option Nat) : WalletState :=
  let st1 := mark_potential st sync_mode block
  { st1 with cached_blocks :=
      insertA st1.cached_blocks block_record.header_hash (block_record, block, tf) }

/-- Outcome of one `while` iteration of `_respond_header`. -/
inductive StepOut
  | done (st : WalletState) (msgs : List Msg)
  | next (st : WalletState) (msgs : List Msg) (resp : RespondHeader)

/-- The `BlockRecord` a `_respond_header` iteration builds from the incoming
header (wallet_node.py lines 771-781): additions and removals are null. -/
def resp_block_record (response : RespondHeader) : BlockRecord :=
  ⟨response.header_block.header_hash, response.header_block.prev_header_hash,
    response.header_block.height, response.header_block.weight, none, none,
    some response.header_block.total_iters,
    some response.header_block.challenge_hash,
    response.header_block.timestamp⟩

/-- One iteration of the `while True` loop of `WalletNode._respond_header`
(wallet_node.py lines 757-855).  `gfar` models the external
`WalletStateManager.get_filter_additions_removals` facade (a pure function of
the record and the filter).  Python's `height - lca.height < threshold` is
arbitrary-precision integer arithmetic, rendered as
`height < lca.height + threshold`, which is equivalent over the integers. -/
def respond_header_step (gfar : BlockRecord → Option Nat → List Nat × List Nat)
    (st : WalletState) (response : RespondHeader) : StepOut :=
  if st.shut_down then StepOut.done st []
  else
    match st.wallet_state_manager with
    | none => StepOut.done st []
    | some w =>
      let block := response.header_block
      if (lookupA w.block_records block.header_hash).isSome then StepOut.done st []
      else if block.height < 1 then StepOut.done st []
      else
        let block_record : BlockRecord := resp_block_record response
        let stc := step_cache st w.sync_mode block block_record
          response.transactions_filter
        if (lookupA w.block_records block.prev_header_hash).isNone then
          let fut := insertA stc.future_block_hashes block.prev_header_hash
            block.header_hash
          let stf : WalletState := { stc with future_block_hashes := fut }
          let msgs : List Msg :=
            match lookupA w.block_records w.lca with
            | some lca_rec =>
              if block_record.height < lca_rec.height + st.short_sync_threshold
                  ∧ w.sync_mode = false then
                [Msg.requestHeader (block_record.height - 1)
                  block_record.prev_header_hash]
              else []
            | none => []
          StepOut.done stf msgs
        else
          let ar := gfar block_record response.transactions_filter
          if ar.1.length > 0 ∨ ar.2.length > 0 then
            StepOut.done stc
              [Msg.requestAdditions block.height block.header_hash ar.1]
          else
            let block_record2 : BlockRecord :=
              { block_record with additions := some [], removals := some [] }
            match block_finished stc block_record2 block
                response.transactions_filter with
            | (st', none) => StepOut.done st' []
            | (st', some resp') => StepOut.next st' [] resp'

/-- The `while True` loop of `_respond_header`, fuelled.  The loop only
continues when `_block_finished` hands back a queued successor; `fuel` bounds
the number of iterations modelled. -/
def respond_header_loop (gfar : BlockRecord → Option Nat → List Nat × List Nat) :
    Nat → WalletState → RespondHeader → WalletState × List Msg
  | 0, st, _ => (st, [])
  | Nat.succ n, st, response =>
    match respond_header_step gfar st response with
    | StepOut.done st' msgs => (st', msgs)
    | StepOut.next st' msgs resp' =>
      let r := respond_header_loop gfar n st' resp'
      (r.1, msgs ++ r.2)

/-- `WalletNode._respond_header` (wallet_node.py lines 748-855): the
not-started guard followed by the iteration loop. -/
def respond_header (gfar : BlockRecord → Option Nat → List Nat × List Nat)
    (fuel : Nat) (st : WalletState) (response : RespondHeader) :
    WalletState × List Msg :=
  match st.wallet_state_manager with
  | none => (st, [])
  | some _ =>
    if st.backup_initialized = false then (st, [])
    else respond_header_loop gfar fuel st response

/-- `WalletNode._messages_to_resend` (wallet_node.py lines 284-306): under the
not-started/shutdown guard, one `send_transaction` per not-sent record that
carries a spend bundle. -/
def messages_to_resend (st : WalletState) : List Msg :=
  match st.wallet_state_manager with
  | none => []
  | some w =>
    if st.backup_initialized = false then []
    else if st.shut_down then []
    else w.tx_not_sent.filterMap (fun r => r.spend_bundle.map Msg.sendTransaction)

/-- `WalletNode._action_messages` (wallet_node.py lines 234-253): one
`request_generator` per pending action with that name. -/
def action_messages (st : WalletState) : List Msg :=
  match st.wallet_state_manager with
  | none => []
  | some w =>
    if st.backup_initialized = false then []
    else w.pending_actions.filterMap (fun a =>
      if a.name = "request_generator" then
        some (Msg.requestGenerator a.height a.header_hash)
      else none)

/-- `WalletNode._resend_queue` (wallet_node.py lines 255-282), returning the
messages it broadcasts.  The Python guard tests `backup_initialized is None`,
which is never true of the boolean field, so only `shut_down`, the server
handle and the state-manager handle gate here; the per-message re-checks of
the same guard are identities over this pure state.  -/
def resend_queue (st : WalletState) : List Msg :=
  if st.shut_down then []
  else if st.has_server = false then []
  else
    match st.wallet_state_manager with
    | none => []
    | some _ => messages_to_resend st ++ action_messages st

/-- The sync-target computation of `WalletNode._sync`
(wallet_node.py lines 412-417). -/
def tip_height_of (header_hashes : List Nat) : Nat :=
  if header_hashes.length > 5 then header_hashes.length - 5
  else header_hashes.length

/-- The prologue of `WalletNode._sync` (wallet_node.py lines 369-378): the
guards, then the resets performed before the first request is sent. -/
def sync_reset (st : WalletState) : WalletState :=
  if st.has_server = false then st
  else
    match st.wallet_state_manager with
    | none => st
    | some _ =>
      if st.backup_initialized = false then st
      else
        { st with
          header_hashes := [],
          header_hashes_error := false,
          proof_hashes := [],
          potential_header_hashes := [] }

/-- `WalletNode.has_full_node` (wallet_node.py lines 337-362).  `cfg` is the
optional `full_node_peer` (host, port) from the config, `resolve` is
`socket.gethostbyname`, and `connections` are the peer infos of the current
full-node connections.  Returns the boolean result together with the list of
connections scheduled for `close()`.  In the source the `close()` call sits
one indentation level outside the inequality test that guards the log line,
so when the pinned peer is present every connection in the loop is closed. -/
def has_full_node (cfg : Option (Nat × Nat)) (resolve : Nat → Nat)
    (connections : List (Nat × Nat)) : Bool × List (Nat × Nat) :=
  match cfg with
  | none => (false, [])
  | some full_node_peer =>
    let full_node_resolved : Nat × Nat :=
      (resolve full_node_peer.1, full_node_peer.2)
    if full_node_peer ∈ connections ∨ full_node_resolved ∈ connections then
      (true, connections)
    else (false, [])

/-- Errors that abort `_sync` inside Phase C. -/
inductive SyncError
  | SampleValidationFailed
  | CommitRejected
  | MissingForkPoint
deriving DecidableEq

/-- The block-record synthesis loop of `_sync` Phase C
(wallet_node.py lines 574-596): walk the heights, track difficulty and
cumulative weight from the proof-hash triples, submit each synthesized record
to `receive_block`, and require `ADDED_TO_HEAD` or `ADDED_AS_ORPHAN`
(the Python `assert`).  Returns the state-manager state and the list of
records submitted, or the error with the state and submissions so far. -/
def sync_commit_loop (proof_hashes : List (Nat × Option Nat × Option Nat))
    (header_hashes : List Nat) :
    WSM → Nat → Nat → List Nat → List BlockRecord →
    Except (SyncError × WSM × List BlockRecord) (WSM × List BlockRecord)
  | w, _, _, [], submitted => Except.ok (w, submitted)
  | w, weight, difficulty, height :: rest, submitted =>
    let triple := proof_hashes.getD height (0, none, none)
    let difficulty' := match triple.2.1 with
      | some d => d
      | none => difficulty
    let weight' := difficulty' + weight
    let block_record : BlockRecord :=
      ⟨header_hashes.getD height 0, header_hashes.getD (height - 1) 0, height,
        weight', some [], some [], triple.2.2, none, 0⟩
    let pr := receive_block w block_record
    if pr.1 = ReceiveBlockResult.ADDED_TO_HEAD
        ∨ pr.1 = ReceiveBlockResult.ADDED_AS_ORPHAN then
      sync_commit_loop proof_hashes header_hashes pr.2 weight' difficulty' rest
        (submitted ++ [block_record])
    else Except.error (SyncError.CommitRejected, pr.2, submitted ++ [block_record])

/-- The tail of `_sync` Phase C (wallet_node.py lines 547-596): the
`validate_select_proofs` assertion, then the difficulty/weight seeding and the
synthesis loop over heights `fork_point_height + 1 .. header_validate_start`.
`validated` is the boolean returned by the external
`WalletStateManager.validate_select_proofs` facade; a false value makes the
Python `assert` raise before anything below it runs. -/
def sync_phaseC (validated : Bool) (w : WSM)
    (proof_hashes : List (Nat × Option Nat × Option Nat))
    (header_hashes : List Nat) (fork_point_height : Nat)
    (starting_height : Nat) (tip_height : Nat) (difficulty_starting : Nat) :
    Except (SyncError × WSM × List BlockRecord) (WSM × List BlockRecord) :=
  if validated = false then
    Except.error (SyncError.SampleValidationFailed, w, [])
  else
    let fork_point_hash := header_hashes.getD fork_point_height 0
    match lookupA w.block_records fork_point_hash with
    | none => Except.error (SyncError.MissingForkPoint, w, [])
    | some fork_rec =>
      let weight0 := fork_rec.weight
      let header_validate_start_height :=
        min (max fork_point_height (starting_height - 1)) (tip_height + 1)
      let difficulty0 :=
        if fork_point_height = 0 then difficulty_starting
        else
          match lookupA w.block_records fork_rec.prev_header_hash with
          | some parent => weight0 - parent.weight
          | none => 0
      sync_commit_loop proof_hashes header_hashes w weight0 difficulty0
        (List.range' (fork_point_height + 1)
          (header_validate_start_height - fork_point_height)) []

theorem lookupA_eraseA_ne {α : Type} (m : List (Nat × α)) (k h : Nat)
    (hne : h ≠ k) : lookupA (eraseA m k) h = lookupA m h := by
  induction m with
  | nil => rfl
  | cons p rest ih =>
    rcases p with ⟨pk, pv⟩
    by_cases hp : pk = k
    · subst hp
      have hkh : pk ≠ h := fun hc => hne hc.symm
      simp [eraseA, lookupA, hkh] at ih ⊢
      exact ih
    · by_cases hph : pk = h
      · simp [eraseA, lookupA, hp, hph, hne]
      · simp [eraseA, lookupA, hp, hph] at ih ⊢
        exact ih

theorem lookupA_insertA_self {α : Type} (m : List (Nat × α)) (k : Nat) (v : α) :
    lookupA (insertA m k v) k = some v := by
  simp [insertA, lookupA]

theorem lookupA_insertA_ne {α : Type} (m : List (Nat × α)) (k h : Nat) (v : α)
    (hne : h ≠ k) : lookupA (insertA m k v) h = lookupA m h := by
  have hkh : k ≠ h := fun hc => hne hc.symm
  simp [insertA, lookupA, hkh]
  exact lookupA_eraseA_ne m k h hne

theorem eraseA_eraseA {α : Type} (m : List (Nat × α)) (k : Nat) :
    eraseA (eraseA m k) k = eraseA m k := by
  simp [eraseA, List.filter_filter]

theorem insertA_idem {α : Type} (m : List (Nat × α)) (k : Nat) (v : α) :
    insertA (insertA m k v) k v = insertA m k v := by
  simp [insertA, eraseA]

theorem lookupA_isSome_insertA {α : Type} (m : List (Nat × α)) (k h : Nat)
    (v : α) (hs : (lookupA m h).isSome = true) :
    (lookupA (insertA m k v) h).isSome = true := by
  by_cases hk : h = k
  · subst hk
    simp [lookupA_insertA_self]
  · rw [lookupA_insertA_ne m k h v hk]
    exact hs

theorem mark_potential_cached (st : WalletState) (s : Bool) (b : HeaderBlock) :
    (mark_potential st s b).cached_blocks = st.cached_blocks := by
  unfold mark_potential
  split
  · split <;> rfl
  · rfl

theorem mark_potential_future (st : WalletState) (s : Bool) (b : HeaderBlock) :
    (mark_potential st s b).future_block_hashes = st.future_block_hashes := by
  unfold mark_potential
  split
  · split <;> rfl
  · rfl

theorem mark_potential_wsm (st : WalletState) (s : Bool) (b : HeaderBlock) :
    (mark_potential st s b).wallet_state_manager = st.wallet_state_manager := by
  unfold mark_potential
  split
  · split <;> rfl
  · rfl

theorem mark_potential_shut (st : WalletState) (s : Bool) (b : HeaderBlock) :
    (mark_potential st s b).shut_down = st.shut_down := by
  unfold mark_potential
  split
  · split <;> rfl
  · rfl

theorem mark_potential_backup (st : WalletState) (s : Bool) (b : HeaderBlock) :
    (mark_potential st s b).backup_initialized = st.backup_initialized := by
  unfold mark_potential
  split
  · split <;> rfl
  · rfl

theorem mark_potential_threshold (st : WalletState) (s : Bool) (b : HeaderBlock) :
    (mark_potential st s b).short_sync_threshold = st.short_sync_threshold := by
  unfold mark_potential
  split
  · split <;> rfl
  · rfl

theorem mark_potential_idem (st : WalletState) (s : Bool) (b : HeaderBlock) :
    mark_potential (mark_potential st s b) s b = mark_potential st s b := by
  unfold mark_potential
  cases s with
  | false => rfl
  | true =>
    simp only [if_true]
    by_cases hp : (lookupA st.potential_blocks_received b.height).isSome = true
    · rw [if_pos hp]
      have hp2 : (lookupA (insertA st.potential_blocks_received b.height true)
          b.height).isSome = true := by
        rw [lookupA_insertA_self]
        rfl
      simp only [hp2, if_true, insertA_idem]
    · rw [if_neg hp, if_neg hp]

theorem step_cache_cached (st : WalletState) (s : Bool) (b : HeaderBlock)
    (r : BlockRecord) (tf : Option Nat) :
    (step_cache st s b r tf).cached_blocks =
      insertA st.cached_blocks r.header_hash (r, b, tf) := by
  simp only [step_cache]
  rw [mark_potential_cached]

theorem step_cache_future (st : WalletState) (s : Bool) (b : HeaderBlock)
    (r : BlockRecord) (tf : Option Nat) :
    (step_cache st s b r tf).future_block_hashes = st.future_block_hashes := by
  simp only [step_cache]
  exact mark_potential_future st s b

theorem step_cache_wsm (st : WalletState) (s : Bool) (b : HeaderBlock)
    (r : BlockRecord) (tf : Option Nat) :
    (step_cache st s b r tf).wallet_state_manager = st.wallet_state_manager := by
  simp only [step_cache]
  exact mark_potential_wsm st s b

theorem step_cache_shut (st : WalletState) (s : Bool) (b : HeaderBlock)
    (r : BlockRecord) (tf : Option Nat) :
    (step_cache st s b r tf).shut_down = st.shut_down := by
  simp only [step_cache]
  exact mark_potential_shut st s b

theorem step_cache_backup (st : WalletState) (s : Bool) (b : HeaderBlock)
    (r : BlockRecord) (tf : Option Nat) :
    (step_cache st s b r tf).backup_initialized = st.backup_initialized := by
  simp only [step_cache]
  exact mark_potential_backup st s b

theorem step_cache_threshold (st : WalletState) (s : Bool) (b : HeaderBlock)
    (r : BlockRecord) (tf : Option Nat) :
    (step_cache st s b r tf).short_sync_threshold = st.short_sync_threshold := by
  simp only [step_cache]
  exact mark_potential_threshold st s b

example :
    lookupA (insertA ([] : List (Nat × Nat)) 3 4) 3 = some 4 := by decide

example :
    (receive_block ⟨[(1, ⟨1, 0, 1, 1, some [], some [], none, none, 0⟩)], 1,
      false, [], []⟩ ⟨2, 1, 2, 5, some [], some [], none, none, 0⟩).1 =
    ReceiveBlockResult.ADDED_TO_HEAD := by decide

/-- A concrete wallet state with the not-started guard tripped
(no state manager). -/
def stNone : WalletState :=
  ⟨[], [], [], [], false, [], [], 15, false, none, false, true⟩

/-- A concrete skeleton list of length 7. -/
def hh7 : List Nat := [0, 1, 2, 3, 4, 5, 6]

/-- A concrete wallet state about to run `_sync`, with leftovers in every
sync-scoped map from a previous run. -/
def stC4 : WalletState :=
  ⟨[], [(4, 5)], [(7, some 3, some 9)], [9], true, [(3, true)], [(3, 9)], 15,
    false, some ⟨[], 0, false, [], []⟩, true, true⟩

/-- C2 counterexample: the claim's formula `tip_height = max(0, len − 5)` fails
on a skeleton of length 3, where the code computes 3 but the formula gives 0. -/
theorem C2_counterexample :
    ((tip_height_of [1, 2, 3] : Int) ≠
      max 0 ((([1, 2, 3] : List Nat).length : Int) - 5)) := by
  decide

/-- C2 (amended): the sync target trails the skeleton length by exactly 5 only
when the length exceeds 5; for lengths of at most 5 the target equals the full
length (no trailing subtraction and no flooring at 0). -/
theorem C2_amended (l : List Nat) :
    (5 < l.length → tip_height_of l = l.length - 5) ∧
    (l.length ≤ 5 → tip_height_of l = l.length) := by
  unfold tip_height_of
  constructor <;> intro h <;> split <;> omega

/-- C2 witness: on a length-7 skeleton the hypothesis of the amended claim
holds and the target is the length minus 5. -/
theorem C2_witness : 5 < hh7.length ∧ tip_height_of hh7 = hh7.length - 5 :=
  ⟨by decide, (C2_amended hh7).1 (by decide)⟩

/-- C3: evaluating `has_full_node` at the failing input — the configured full
node `(1, 8444)` is connected (trivial resolution) alongside one other peer —
shows the function returns true but schedules a `close()` on every connection,
the pinned peer's own connection included, because the `close()` call in the
source sits outside the inequality test that only guards the log line. -/
theorem C3_pinned_peer_closed :
    has_full_node (some (1, 8444)) (fun h => h) [(1, 8444), (2, 8444)] =
      (true, [(1, 8444), (2, 8444)]) := by
  decide

/-- C4 counterexample: the `_sync` prologue clears `header_hashes`,
`proof_hashes` and `potential_header_hashes`, but leaves
`potential_blocks_received` untouched, so the claim that all four sync-scoped
maps are cleared fails on a state carrying a leftover signal at height 3. -/
theorem C4_counterexample :
    (sync_reset stC4).header_hashes = [] ∧
    (sync_reset stC4).proof_hashes = [] ∧
    (sync_reset stC4).potential_header_hashes = [] ∧
    (sync_reset stC4).potential_blocks_received = [(3, true)] := by
  decide

/-- C4 (amended): at the start of every `_sync` run that passes the guards,
`header_hashes`, `proof_hashes` and `potential_header_hashes` are cleared and
the error flag is reset, before any request is sent; `potential_blocks_received`
is not cleared (it keeps the previous run's entries), and the steady-state
caches are untouched. -/
theorem C4_amended (st : WalletState) (h1 : st.has_server = true)
    (h2 : st.wallet_state_manager.isSome = true)
    (h3 : st.backup_initialized = true) :
    (sync_reset st).header_hashes = [] ∧
    (sync_reset st).header_hashes_error = false ∧
    (sync_reset st).proof_hashes = [] ∧
    (sync_reset st).potential_header_hashes = [] ∧
    (sync_reset st).potential_blocks_received = st.potential_blocks_received ∧
    (sync_reset st).cached_blocks = st.cached_blocks ∧
    (sync_reset st).future_block_hashes = st.future_block_hashes := by
  obtain ⟨w, hw⟩ := Option.isSome_iff_exists.mp h2
  simp [sync_reset, h1, hw, h3]

/-- C4 witness: the amended claim applied to the concrete pre-sync state. -/
theorem C4_witness :
    (sync_reset stC4).header_hashes = [] ∧
    (sync_reset stC4).future_block_hashes = stC4.future_block_hashes :=
  ⟨(C4_amended stC4 rfl (by decide) rfl).1,
    (C4_amended stC4 rfl (by decide) rfl).2.2.2.2.2.2⟩

/-- C9: when `validate_select_proofs` returns false, Phase C of `_sync` fails
with the sample-validation error before the block-record synthesis loop runs:
the state-manager state is returned unchanged and the list of records
submitted to `receive_block` is empty. -/
theorem C9_sampler_rejection (w : WSM)
    (proof_hashes : List (Nat × Option Nat × Option Nat))
    (header_hashes : List Nat) (fork_point_height : Nat)
    (starting_height : Nat) (tip_height : Nat) (difficulty_starting : Nat) :
    sync_phaseC false w proof_hashes header_hashes fork_point_height
        starting_height tip_height difficulty_starting =
      Except.error (SyncError.SampleValidationFailed, w, []) := by
  rfl

/-- C10: with no state manager or an uninitialized backup, `_respond_header`
and `_block_finished` return immediately without touching any state,
`_messages_to_resend` returns no messages, and `_resend_queue` emits nothing
(for an uninitialized backup the latter holds because both message sources
return empty lists, the outer `is None` guard notwithstanding). -/
theorem C10_not_started_guard
    (gfar : BlockRecord → Option Nat → List Nat × List Nat) (fuel : Nat)
    (st : WalletState) (response : RespondHeader) (rec : BlockRecord)
    (hb : HeaderBlock) (tf : Option Nat)
    (h : st.wallet_state_manager = none ∨ st.backup_initialized = false) :
    respond_header gfar fuel st response = (st, []) ∧
    block_finished st rec hb tf = (st, none) ∧
    messages_to_resend st = [] ∧
    resend_queue st = [] := by
  rcases h with h | h
  · simp [respond_header, block_finished, messages_to_resend, resend_queue, h]
  · cases hw : st.wallet_state_manager with
    | none =>
      simp [respond_header, block_finished, messages_to_resend, resend_queue, hw]
    | some w =>
      simp [respond_header, block_finished, messages_to_resend, resend_queue,
        action_messages, hw, h]

/-- C10 witness: the guard claim applied to the concrete not-started state. -/
theorem C10_witness :
    (stNone.wallet_state_manager = none ∨ stNone.backup_initialized = false) ∧
    resend_queue stNone = [] :=
  ⟨Or.inl rfl,
    (C10_not_started_guard (fun _ _ => ([], [])) 1 stNone
      ⟨⟨1, 1, 0, 1, 0, 0, 0⟩, none⟩ ⟨1, 0, 1, 1, none, none, none, none, 0⟩
      ⟨1, 1, 0, 1, 0, 0, 0⟩ none (Or.inl rfl)).2.2.2⟩

theorem block_finished_future_eq (st : WalletState) (rec : BlockRecord)
    (hb : HeaderBlock) (tf : Option Nat) :
    (block_finished st rec hb tf).1.future_block_hashes =
      st.future_block_hashes := by
  cases hw : st.wallet_state_manager with
  | none => simp [block_finished, hw]
  | some w =>
    by_cases hbk : st.backup_initialized = false
    · simp [block_finished, hw, hbk]
    · cases hres : (receive_block w rec).1 with
      | DISCONNECTED_BLOCK => simp [block_finished, hw, hbk, hres]
      | INVALID_BLOCK => simp [block_finished, hw, hbk, hres]
      | ALREADY_HAVE_BLOCK => simp [block_finished, hw, hbk, hres]
      | ADDED_AS_ORPHAN => simp [block_finished, hw, hbk, hres]
      | ADDED_TO_HEAD =>
        simp [block_finished, hw, hbk, hres,
          apply_ite WalletState.future_block_hashes]

/-- A committed parent at height 199 (the chain tip before the new block). -/
def recPrevB : BlockRecord := ⟨1, 0, 199, 1, some [], some [], none, none, 0⟩

/-- A new block at height 200 extending `recPrevB` with higher weight. -/
def recB : BlockRecord := ⟨10, 1, 200, 5, some [], some [], none, none, 0⟩

/-- A cached block at height 99 (more than 100 below the new tip). -/
def recOld : BlockRecord := ⟨30, 2, 99, 1, none, none, some 0, some 0, 0⟩

/-- A cached block at height 100 (exactly 100 below the new tip). -/
def recEdge : BlockRecord := ⟨40, 2, 100, 1, none, none, some 0, some 0, 0⟩

/-- Header blocks for the cached fixtures and the new block. -/
def hbOld : HeaderBlock := ⟨99, 1, 2, 30, 0, 0, 0⟩

def hbEdge : HeaderBlock := ⟨100, 1, 2, 40, 0, 0, 0⟩

def hbB : HeaderBlock := ⟨200, 5, 1, 10, 0, 0, 0⟩

/-- The steady-state state manager holding the parent, not syncing. -/
def wB : WSM := ⟨[(1, recPrevB)], 1, false, [], []⟩

/-- Wallet state with two cached entries at heights 99 and 100 before the
height-200 block finishes. -/
def stB : WalletState :=
  ⟨[(30, (recOld, hbOld, none)), (40, (recEdge, hbEdge, none))], [], [], [],
    false, [], [], 15, false, some wB, true, true⟩

/-- The state-manager state after `recB` is received (new head at hash 10). -/
def wB' : WSM := ⟨[(10, recB), (1, recPrevB)], 10, false, [], []⟩

/-- C5: after a `_block_finished` call whose `receive_block` result is
`ADDED_TO_HEAD` at height `H` with sync mode off, the cache equals the old
cache filtered to entries whose height is at most 100 below `H`: every
surviving entry satisfies `height + 100 ≥ H`, eviction removes exactly the
entries more than 100 below the new tip, and an entry at exactly `H − 100`
survives. -/
theorem C5_eviction (st : WalletState) (rec : BlockRecord) (hb : HeaderBlock)
    (tf : Option Nat) (w : WSM)
    (hwsm : st.wallet_state_manager = some w)
    (hbk : st.backup_initialized = true)
    (hres : (receive_block w rec).1 = ReceiveBlockResult.ADDED_TO_HEAD)
    (hsync : (receive_block w rec).2.sync_mode = false) :
    (block_finished st rec hb tf).1.cached_blocks =
      st.cached_blocks.filter
        (fun p => decide (rec.height ≤ p.2.1.height + 100)) ∧
    (∀ p ∈ (block_finished st rec hb tf).1.cached_blocks,
      rec.height ≤ p.2.1.height + 100) ∧
    (∀ p ∈ st.cached_blocks, rec.height ≤ p.2.1.height + 100 →
      p ∈ (block_finished st rec hb tf).1.cached_blocks) := by
  have key : (block_finished st rec hb tf).1.cached_blocks =
      st.cached_blocks.filter
        (fun p => decide (rec.height ≤ p.2.1.height + 100)) := by
    simp [block_finished, hwsm, hbk, hres, hsync]
  refine ⟨key, ?_, ?_⟩
  · intro p hp
    rw [key] at hp
    have := List.of_mem_filter hp
    simpa using this
  · intro p hp hle
    rw [key]
    exact List.mem_filter.mpr ⟨hp, by simpa using hle⟩

/-- C5 witness: for the concrete height-200 head commit, the hypotheses hold,
the height-99 cached entry is evicted and the height-100 entry survives. -/
theorem C5_witness :
    (receive_block wB recB).1 = ReceiveBlockResult.ADDED_TO_HEAD ∧
    (block_finished stB recB hbB none).1.cached_blocks =
      stB.cached_blocks.filter
        (fun p => decide (recB.height ≤ p.2.1.height + 100)) :=
  ⟨by decide, (C5_eviction stB recB hbB none wB rfl rfl (by decide)
    (by decide)).1⟩

/-- C5 sanity: at the concrete input the filtered cache is exactly the
height-100 entry — the height-99 entry is gone. -/
theorem C5_concrete :
    (block_finished stB recB hbB none).1.cached_blocks =
      [(40, (recEdge, hbEdge, none))] := by
  decide

/-- A queued successor block at height 201 whose parent is `recB`. -/
def rec20 : BlockRecord := ⟨20, 10, 201, 9, none, none, some 0, some 0, 0⟩

/-- The successor's header block. -/
def hb20 : HeaderBlock := ⟨201, 9, 10, 20, 0, 0, 0⟩

/-- Wallet state where the height-201 successor (hash 20) waits in
`cached_blocks` and `future_block_hashes` maps its missing parent's hash 10
to it, just before the parent finishes. -/
def stC1 : WalletState :=
  ⟨[(20, (rec20, hb20, none))], [(10, 20)], [], [], false, [], [], 15, false,
    some wB, true, true⟩

/-- C1 counterexample: when the height-200 parent (hash 10) finishes with its
successor queued, `_block_finished` returns the synthesized `RespondHeader`
for the successor but does not pop the successor's entry from
`cached_blocks` — the entry for hash 20 is still present afterwards, so the
claimed removal does not happen. -/
theorem C1_counterexample :
    (block_finished stC1 recB hbB none).2 = some ⟨hb20, none⟩ ∧
    lookupA (block_finished stC1 recB hbB none).1.cached_blocks 20 =
      some (rec20, hb20, none) := by
  decide

/-- C1 (amended): for calls whose `receive_block` result is `ADDED_AS_ORPHAN`
or `ADDED_TO_HEAD`, `_block_finished` returns the `RespondHeader` synthesized
by reading (not removing) the successor's entry in the resulting
`cached_blocks` when `future_block_hashes` has an entry for the record's hash
and the target is cached, and returns none when no such entry exists. -/
theorem C1_amended (st : WalletState) (rec : BlockRecord) (hb : HeaderBlock)
    (tf : Option Nat) (w : WSM)
    (hwsm : st.wallet_state_manager = some w)
    (hbk : st.backup_initialized = true)
    (hres : (receive_block w rec).1 = ReceiveBlockResult.ADDED_AS_ORPHAN ∨
      (receive_block w rec).1 = ReceiveBlockResult.ADDED_TO_HEAD) :
    (block_finished st rec hb tf).2 =
      (lookupA st.future_block_hashes rec.header_hash).bind (fun new_hh =>
        (lookupA (block_finished st rec hb tf).1.cached_blocks new_hh).map
          (fun c => ⟨c.2.1, c.2.2⟩)) := by
  rcases hres with h | h
  · simp [block_finished, hwsm, hbk, h]
  · simp [block_finished, hwsm, hbk, h,
      apply_ite WalletState.future_block_hashes,
      apply_ite WalletState.cached_blocks]

/-- C1 witness: the amended claim applied to the concrete parent-finishes
scenario with the queued successor. -/
theorem C1_witness :
    (block_finished stC1 recB hbB none).2 =
      (lookupA stC1.future_block_hashes recB.header_hash).bind (fun new_hh =>
        (lookupA (block_finished stC1 recB hbB none).1.cached_blocks
          new_hh).map (fun c => ⟨c.2.1, c.2.2⟩)) :=
  C1_amended stC1 recB hbB none wB rfl rfl (Or.inr (by decide))

/-- C7 counterexample: after the ancestor (hash 10) commits as the new head
and its queued successor is handed back, the `future_block_hashes` entry
keyed by the committed hash 10 is still present, so the claimed invariant
(no entry whose key names a committed block) is violated. -/
theorem C7_counterexample :
    lookupA (block_finished stC1 recB hbB none).1.future_block_hashes 10 =
      some 20 ∧
    (block_finished stC1 recB hbB none).2 = some ⟨hb20, none⟩ ∧
    ((block_finished stC1 recB hbB none).1.wallet_state_manager.map
      (fun w => (lookupA w.block_records 10).isSome)) = some true := by
  decide

/-- C7 (amended): `_block_finished` never removes (or otherwise changes)
`future_block_hashes` — the entry keyed by a newly committed ancestor
persists after its successor is handed back, so entries with committed keys
can remain. -/
theorem C7_amended (st : WalletState) (rec : BlockRecord) (hb : HeaderBlock)
    (tf : Option Nat) :
    (block_finished st rec hb tf).1.future_block_hashes =
      st.future_block_hashes :=
  block_finished_future_eq st rec hb tf

/-- C6: for a `RespondHeader` whose block is not committed, has height at
least 1 and whose parent is not committed, `_respond_header` caches the block
record built from the header, sets `future_block_hashes[prev_hash]` to the
block's hash, leaves the state manager untouched (commits nothing), and sends
`RequestHeader(height − 1, prev_hash)` exactly when sync mode is off and the
height is within the short-sync threshold (15) of the LCA height (Python's
`height − lca.height < threshold` on unbounded integers is
`height < lca.height + threshold`). -/
theorem C6_ancestor_missing
    (gfar : BlockRecord → Option Nat → List Nat × List Nat) (n : Nat)
    (st : WalletState) (response : RespondHeader) (w : WSM)
    (lca_rec : BlockRecord)
    (hwsm : st.wallet_state_manager = some w)
    (hbk : st.backup_initialized = true)
    (hsd : st.shut_down = false)
    (hthr : st.short_sync_threshold = 15)
    (hnew : lookupA w.block_records response.header_block.header_hash = none)
    (hh : 1 ≤ response.header_block.height)
    (hprev : lookupA w.block_records response.header_block.prev_header_hash =
      none)
    (hlca : lookupA w.block_records w.lca = some lca_rec) :
    lookupA (respond_header gfar (n + 1) st response).1.cached_blocks
        response.header_block.header_hash =
      some (⟨response.header_block.header_hash,
        response.header_block.prev_header_hash, response.header_block.height,
        response.header_block.weight, none, none,
        some response.header_block.total_iters,
        some response.header_block.challenge_hash,
        response.header_block.timestamp⟩, response.header_block,
        response.transactions_filter) ∧
    lookupA (respond_header gfar (n + 1) st response).1.future_block_hashes
        response.header_block.prev_header_hash =
      some response.header_block.header_hash ∧
    (respond_header gfar (n + 1) st response).1.wallet_state_manager =
      some w ∧
    (respond_header gfar (n + 1) st response).2 =
      (if response.header_block.height < lca_rec.height + 15 ∧
          w.sync_mode = false then
        [Msg.requestHeader (response.header_block.height - 1)
          response.header_block.prev_header_hash]
      else []) := by
  have hh1 : ¬(response.header_block.height < 1) := by omega
  simp only [respond_header, hwsm, hbk, respond_header_loop,
    respond_header_step, resp_block_record, hsd, hnew, hh1, hprev, hlca, hthr,
    Option.isSome_none, Option.isNone_none, Bool.false_eq_true, if_false,
    ite_false, ite_true, if_true, Bool.true_eq_false,
    step_cache_cached, step_cache_future, step_cache_wsm,
    lookupA_insertA_self]
  exact ⟨trivial, trivial, trivial, trivial⟩

/-- The committed LCA record at height 200. -/
def recLca : BlockRecord := ⟨1, 0, 200, 7, some [], some [], none, none, 0⟩

/-- Steady-state manager: LCA at height 200, not syncing. -/
def w6 : WSM := ⟨[(1, recLca)], 1, false, [], []⟩

/-- An incoming header at height 202 whose parent (hash 201) is unknown. -/
def hb202 : HeaderBlock := ⟨202, 9, 201, 202, 0, 0, 0⟩

/-- The `RespondHeader` message carrying the height-202 header. -/
def resp6 : RespondHeader := ⟨hb202, none⟩

/-- Wallet state receiving the height-202 header in steady state. -/
def st6 : WalletState :=
  ⟨[], [], [], [], false, [], [], 15, false, some w6, true, true⟩

/-- C6 witness: on the concrete missing-ancestor scenario the hypotheses hold,
the future pointer `201 ↦ 202` is set and `RequestHeader(201, 201)` is sent. -/
theorem C6_witness :
    lookupA (respond_header (fun _ _ => ([], [])) 1 st6
      resp6).1.future_block_hashes 201 = some 202 ∧
    (respond_header (fun _ _ => ([], [])) 1 st6 resp6).2 =
      [Msg.requestHeader 201 201] := by
  have h := C6_ancestor_missing (fun _ _ => ([], [])) 0 st6 resp6 w6 recLca
    rfl rfl rfl rfl (by decide) (by decide) (by decide) (by decide)
  refine ⟨h.2.1, ?_⟩
  rw [h.2.2.2]
  decide

/-- Whether hash `h` names a committed block in the wallet's state manager. -/
def committed (st : WalletState) (h : Nat) : Bool :=
  match st.wallet_state_manager with
  | some w => (lookupA w.block_records h).isSome
  | none => false

theorem committed_some (st : WalletState) (w : WSM) (h : Nat)
    (hw : st.wallet_state_manager = some w) :
    committed st h = (lookupA w.block_records h).isSome := by
  unfold committed
  rw [hw]

theorem receive_block_mono (w : WSM) (rec : BlockRecord) (h : Nat)
    (hs : (lookupA w.block_records h).isSome = true) :
    (lookupA (receive_block w rec).2.block_records h).isSome = true := by
  unfold receive_block
  by_cases h1 : (lookupA w.block_records rec.header_hash).isSome = true
  · simp [h1, hs]
  · by_cases h2 : (lookupA w.block_records rec.prev_header_hash).isNone = true
    · simp [h1, h2, hs]
    · simp only [h1, h2, if_false, ite_false, Bool.false_eq_true]
      cases hl : lookupA w.block_records w.lca with
      | none =>
        simpa using lookupA_isSome_insertA w.block_records rec.header_hash h
          rec hs
      | some lr =>
        by_cases hwt : lr.weight < rec.weight
        · simp only [hl, hwt, if_true, ite_true]
          simpa using lookupA_isSome_insertA w.block_records rec.header_hash h
            rec hs
        · simp only [hl, hwt, if_false, ite_false]
          simpa using lookupA_isSome_insertA w.block_records rec.header_hash h
            rec hs

theorem receive_block_adds (w : WSM) (rec : BlockRecord)
    (h1 : (lookupA w.block_records rec.header_hash).isSome = false)
    (h2 : (lookupA w.block_records rec.prev_header_hash).isSome = true) :
    (lookupA (receive_block w rec).2.block_records rec.header_hash).isSome =
      true := by
  unfold receive_block
  have h2' : (lookupA w.block_records rec.prev_header_hash).isNone = false := by
    rw [Option.isNone_eq_false_iff, Option.isSome_iff_exists] at *
    exact h2
  simp only [h1, h2', if_false, ite_false, Bool.false_eq_true]
  cases hl : lookupA w.block_records w.lca with
  | none => simp [lookupA_insertA_self]
  | some lr =>
    by_cases hwt : lr.weight < rec.weight
    · simp only [hl, hwt, if_true, ite_true]
      simp [lookupA_insertA_self]
    · simp only [hl, hwt, if_false, ite_false]
      simp [lookupA_insertA_self]

theorem receive_block_added (w : WSM) (rec : BlockRecord)
    (hres : (receive_block w rec).1 = ReceiveBlockResult.ADDED_AS_ORPHAN ∨
      (receive_block w rec).1 = ReceiveBlockResult.ADDED_TO_HEAD) :
    (lookupA (receive_block w rec).2.block_records rec.header_hash).isSome =
      true := by
  unfold receive_block at hres ⊢
  by_cases h1 : (lookupA w.block_records rec.header_hash).isSome = true
  · simp [h1] at hres
  · by_cases h2 : (lookupA w.block_records rec.prev_header_hash).isNone = true
    · simp [h1, h2] at hres
    · simp only [h1, h2, if_false, ite_false, Bool.false_eq_true]
      cases hl : lookupA w.block_records w.lca with
      | none => simp [lookupA_insertA_self]
      | some lr =>
        by_cases hwt : lr.weight < rec.weight
        · simp only [hl, hwt, if_true, ite_true]
          simp [lookupA_insertA_self]
        · simp only [hl, hwt, if_false, ite_false]
          simp [lookupA_insertA_self]

theorem block_finished_state (st : WalletState) (rec : BlockRecord)
    (hb : HeaderBlock) (tf : Option Nat) :
    ((st.wallet_state_manager = none ∨ st.backup_initialized = false) ∧
      (block_finished st rec hb tf).1 = st) ∨
    ∃ w cb, st.wallet_state_manager = some w ∧
      (block_finished st rec hb tf).1 =
        { st with
          wallet_state_manager := some (receive_block w rec).2,
          cached_blocks := cb } := by
  cases hw : st.wallet_state_manager with
  | none =>
    left
    exact ⟨Or.inl rfl, by simp [block_finished, hw]⟩
  | some w =>
    by_cases hbk : st.backup_initialized = false
    · left
      exact ⟨Or.inr hbk, by simp [block_finished, hw, hbk]⟩
    · right
      cases hres : (receive_block w rec).1 with
      | DISCONNECTED_BLOCK =>
        exact ⟨w, st.cached_blocks, rfl, by simp [block_finished, hw, hbk, hres]⟩
      | INVALID_BLOCK =>
        exact ⟨w, st.cached_blocks, rfl, by simp [block_finished, hw, hbk, hres]⟩
      | ALREADY_HAVE_BLOCK =>
        exact ⟨w, st.cached_blocks, rfl, by simp [block_finished, hw, hbk, hres]⟩
      | ADDED_AS_ORPHAN =>
        exact ⟨w, st.cached_blocks, rfl, by simp [block_finished, hw, hbk, hres]⟩
      | ADDED_TO_HEAD =>
        by_cases hsy : (receive_block w rec).2.sync_mode = false
        · exact ⟨w, st.cached_blocks.filter
            (fun p => decide (rec.height ≤ p.2.1.height + 100)), rfl,
            by simp [block_finished, hw, hbk, hres, hsy]⟩
        · exact ⟨w, st.cached_blocks, rfl,
            by simp [block_finished, hw, hbk, hres, hsy]⟩

theorem block_finished_preserves (st : WalletState) (rec : BlockRecord)
    (hb : HeaderBlock) (tf : Option Nat) :
    ((block_finished st rec hb tf).1.shut_down = st.shut_down) ∧
    ((block_finished st rec hb tf).1.backup_initialized =
      st.backup_initialized) ∧
    ((block_finished st rec hb tf).1.wallet_state_manager.isSome =
      st.wallet_state_manager.isSome) ∧
    (∀ h, committed st h = true →
      committed (block_finished st rec hb tf).1 h = true) := by
  rcases block_finished_state st rec hb tf with ⟨_, h⟩ | ⟨w, cb, hw, h⟩
  · simp [h]
  · rw [h]
    refine ⟨rfl, rfl, by simp [hw], ?_⟩
    intro hsh hc
    rw [committed_some st w hsh hw] at hc
    simpa [committed] using receive_block_mono w rec hsh hc

theorem block_finished_guard (st : WalletState) (rec : BlockRecord)
    (hb : HeaderBlock) (tf : Option Nat)
    (hbk : st.backup_initialized = false) :
    block_finished st rec hb tf = (st, none) := by
  cases hw : st.wallet_state_manager with
  | none => simp [block_finished, hw]
  | some w => simp [block_finished, hw, hbk]

theorem block_finished_commits (st : WalletState) (rec : BlockRecord)
    (hb : HeaderBlock) (tf : Option Nat) (w : WSM)
    (hwsm : st.wallet_state_manager = some w)
    (hbk : st.backup_initialized = true)
    (h1 : (lookupA w.block_records rec.header_hash).isSome = false)
    (h2 : (lookupA w.block_records rec.prev_header_hash).isSome = true) :
    committed (block_finished st rec hb tf).1 rec.header_hash = true := by
  rcases block_finished_state st rec hb tf with ⟨hg, _⟩ | ⟨w2, cb, hw2, h⟩
  · rcases hg with hg | hg
    · rw [hwsm] at hg
      cases hg
    · rw [hbk] at hg
      cases hg
  · rw [hwsm] at hw2
    injection hw2 with hw2
    subst hw2
    rw [h]
    simpa [committed] using receive_block_adds w rec h1 h2

theorem block_finished_wsm_after (st : WalletState) (rec : BlockRecord)
    (hb : HeaderBlock) (tf : Option Nat) (w : WSM)
    (hw : st.wallet_state_manager = some w)
    (hbk : st.backup_initialized = true) :
    (block_finished st rec hb tf).1.wallet_state_manager =
      some (receive_block w rec).2 := by
  cases hres : (receive_block w rec).1 with
  | DISCONNECTED_BLOCK => simp [block_finished, hw, hbk, hres]
  | INVALID_BLOCK => simp [block_finished, hw, hbk, hres]
  | ALREADY_HAVE_BLOCK => simp [block_finished, hw, hbk, hres]
  | ADDED_AS_ORPHAN => simp [block_finished, hw, hbk, hres]
  | ADDED_TO_HEAD =>
    simp [block_finished, hw, hbk, hres,
      apply_ite WalletState.wallet_state_manager]

theorem block_finished_some_res (st : WalletState) (rec : BlockRecord)
    (hb : HeaderBlock) (tf : Option Nat) (w : WSM) (r : RespondHeader)
    (hw : st.wallet_state_manager = some w)
    (h : (block_finished st rec hb tf).2 = some r) :
    (receive_block w rec).1 = ReceiveBlockResult.ADDED_AS_ORPHAN ∨
    (receive_block w rec).1 = ReceiveBlockResult.ADDED_TO_HEAD := by
  by_cases hbk : st.backup_initialized = false
  · simp [block_finished, hw, hbk] at h
  · cases hres : (receive_block w rec).1 with
    | DISCONNECTED_BLOCK => simp [block_finished, hw, hbk, hres] at h
    | INVALID_BLOCK => simp [block_finished, hw, hbk, hres] at h
    | ALREADY_HAVE_BLOCK => simp [block_finished, hw, hbk, hres] at h
    | ADDED_AS_ORPHAN => exact Or.inl rfl
    | ADDED_TO_HEAD => exact Or.inr rfl

theorem block_finished_some_committed (st : WalletState) (rec : BlockRecord)
    (hb : HeaderBlock) (tf : Option Nat) (st' : WalletState)
    (r : RespondHeader)
    (h : block_finished st rec hb tf = (st', some r)) :
    committed st' rec.header_hash = true := by
  cases hw : st.wallet_state_manager with
  | none => simp [block_finished, hw] at h
  | some w =>
    by_cases hbk : st.backup_initialized = false
    · simp [block_finished, hw, hbk] at h
    · have hbk' : st.backup_initialized = true := by
        revert hbk
        cases st.backup_initialized <;> simp
      have h2 : (block_finished st rec hb tf).2 = some r := by rw [h]
      have hres := block_finished_some_res st rec hb tf w r hw h2
      have hadd := receive_block_added w rec hres
      have h1 : (block_finished st rec hb tf).1 = st' := by rw [h]
      rw [← h1, committed_some (block_finished st rec hb tf).1
        (receive_block w rec).2 rec.header_hash
        (block_finished_wsm_after st rec hb tf w hw hbk')]
      exact hadd

/-- The state carried by a loop-step outcome. -/
def stepState : StepOut → WalletState
  | StepOut.done st _ => st
  | StepOut.next st _ _ => st

theorem mark_potential_set_cached (st : WalletState)
    (x : List (Nat × (BlockRecord × HeaderBlock × Option Nat))) (s : Bool)
    (b : HeaderBlock) :
    mark_potential { st with cached_blocks := x } s b =
      { mark_potential st s b with cached_blocks := x } := by
  unfold mark_potential
  cases s
  · rfl
  · by_cases hp : (lookupA st.potential_blocks_received b.height).isSome = true
    · simp [hp]
    · simp [hp]

theorem mark_potential_set_future (st : WalletState) (f : List (Nat × Nat))
    (s : Bool) (b : HeaderBlock) :
    mark_potential { st with future_block_hashes := f } s b =
      { mark_potential st s b with future_block_hashes := f } := by
  unfold mark_potential
  cases s
  · rfl
  · by_cases hp : (lookupA st.potential_blocks_received b.height).isSome = true
    · simp [hp]
    · simp [hp]

theorem step_cache_set_future (st : WalletState) (f : List (Nat × Nat))
    (s : Bool) (b : HeaderBlock) (r : BlockRecord) (tf : Option Nat) :
    step_cache { st with future_block_hashes := f } s b r tf =
      { step_cache st s b r tf with future_block_hashes := f } := by
  simp only [step_cache]
  rw [mark_potential_set_future]

theorem step_cache_idem (st : WalletState) (s : Bool) (b : HeaderBlock)
    (r : BlockRecord) (tf : Option Nat) :
    step_cache (step_cache st s b r tf) s b r tf = step_cache st s b r tf := by
  simp only [step_cache]
  rw [mark_potential_set_cached, mark_potential_idem]
  simp [insertA_idem]

theorem committed_congr (s1 s2 : WalletState) (k : Nat)
    (h : s1.wallet_state_manager = s2.wallet_state_manager) :
    committed s1 k = committed s2 k := by
  unfold committed
  rw [h]

theorem committed_step_done (gfar : BlockRecord → Option Nat → List Nat × List Nat)
    (st : WalletState) (resp : RespondHeader)
    (h : committed st resp.header_block.header_hash = true) :
    respond_header_step gfar st resp = StepOut.done st [] := by
  by_cases hsd : st.shut_down = true
  · simp [respond_header_step, hsd]
  · cases hw : st.wallet_state_manager with
    | none =>
      unfold committed at h
      rw [hw] at h
      cases h
    | some w =>
      have hl : (lookupA w.block_records resp.header_block.header_hash).isSome
          = true := by
        rw [committed_some st w _ hw] at h
        exact h
      simp [respond_header_step, hsd, hw, hl]

theorem respond_header_step_shape
    (gfar : BlockRecord → Option Nat → List Nat × List Nat)
    (st : WalletState) (resp : RespondHeader) :
    stepState (respond_header_step gfar st resp) = st ∨
    (∃ w f, st.wallet_state_manager = some w ∧
      stepState (respond_header_step gfar st resp) =
        { step_cache st w.sync_mode resp.header_block (resp_block_record resp)
            resp.transactions_filter with
          future_block_hashes := f }) ∨
    (∃ w, st.wallet_state_manager = some w ∧
      stepState (respond_header_step gfar st resp) =
        step_cache st w.sync_mode resp.header_block (resp_block_record resp)
          resp.transactions_filter) ∨
    (∃ w, st.wallet_state_manager = some w ∧
      stepState (respond_header_step gfar st resp) =
        (block_finished
          (step_cache st w.sync_mode resp.header_block
            (resp_block_record resp) resp.transactions_filter)
          { resp_block_record resp with
            additions := some [], removals := some [] }
          resp.header_block resp.transactions_filter).1) := by
  by_cases hsd : st.shut_down = true
  · left
    simp [respond_header_step, hsd, stepState]
  · cases hw : st.wallet_state_manager with
    | none =>
      left
      simp [respond_header_step, hsd, hw, stepState]
    | some w =>
      by_cases hcm :
          (lookupA w.block_records resp.header_block.header_hash).isSome = true
      · left
        simp [respond_header_step, hsd, hw, hcm, stepState]
      · by_cases hh1 : resp.header_block.height < 1
        · left
          simp [respond_header_step, hsd, hw, hcm, hh1, stepState]
        · by_cases hprev : (lookupA w.block_records
              resp.header_block.prev_header_hash).isNone = true
          · right; left
            refine ⟨w, insertA (step_cache st w.sync_mode resp.header_block
              (resp_block_record resp)
              resp.transactions_filter).future_block_hashes
              resp.header_block.prev_header_hash
              resp.header_block.header_hash, rfl, ?_⟩
            simp [respond_header_step, hsd, hw, hcm, hh1, hprev, stepState]
          · by_cases har :
                ((gfar (resp_block_record resp) resp.transactions_filter).1.length
                  > 0 ∨
                (gfar (resp_block_record resp)
                  resp.transactions_filter).2.length > 0)
            · right; right; left
              exact ⟨w, rfl, by
                simp [respond_header_step, hsd, hw, hcm, hh1, hprev, har,
                  stepState]⟩
            · right; right; right
              refine ⟨w, rfl, ?_⟩
              simp only [respond_header_step, hsd, hw, hcm, hh1, hprev, har,
                if_false, ite_false, Bool.false_eq_true, or_self]
              rcases hbf : block_finished
                  (step_cache st w.sync_mode resp.header_block
                    (resp_block_record resp) resp.transactions_filter)
                  { resp_block_record resp with
                    additions := some [], removals := some [] }
                  resp.header_block resp.transactions_filter with ⟨st2, d⟩
              cases d <;> simp [hbf, stepState]

theorem respond_header_step_preserves
    (gfar : BlockRecord → Option Nat → List Nat × List Nat)
    (st : WalletState) (resp : RespondHeader) :
    ((stepState (respond_header_step gfar st resp)).shut_down =
      st.shut_down) ∧
    ((stepState (respond_header_step gfar st resp)).backup_initialized =
      st.backup_initialized) ∧
    ((stepState (respond_header_step gfar st resp)).wallet_state_manager.isSome
      = st.wallet_state_manager.isSome) ∧
    (∀ k, committed st k = true →
      committed (stepState (respond_header_step gfar st resp)) k = true) := by
  rcases respond_header_step_shape gfar st resp with
    h | ⟨w, f, hw, h⟩ | ⟨w, hw, h⟩ | ⟨w, hw, h⟩
  · simp [h]
  · rw [h]
    refine ⟨?_, ?_, ?_, ?_⟩
    · show (step_cache st w.sync_mode resp.header_block (resp_block_record resp)
        resp.transactions_filter).shut_down = st.shut_down
      exact step_cache_shut _ _ _ _ _
    · show (step_cache st w.sync_mode resp.header_block (resp_block_record resp)
        resp.transactions_filter).backup_initialized = st.backup_initialized
      exact step_cache_backup _ _ _ _ _
    · show (step_cache st w.sync_mode resp.header_block (resp_block_record resp)
        resp.transactions_filter).wallet_state_manager.isSome =
        st.wallet_state_manager.isSome
      rw [step_cache_wsm]
    · intro k hc
      have hcg : committed { step_cache st w.sync_mode resp.header_block
          (resp_block_record resp) resp.transactions_filter with
          future_block_hashes := f } k = committed st k := by
        refine committed_congr _ st k ?_
        show (step_cache st w.sync_mode resp.header_block
          (resp_block_record resp)
          resp.transactions_filter).wallet_state_manager =
          st.wallet_state_manager
        exact step_cache_wsm _ _ _ _ _
      rw [hcg]
      exact hc
  · rw [h]
    refine ⟨step_cache_shut _ _ _ _ _, step_cache_backup _ _ _ _ _,
      by rw [step_cache_wsm], ?_⟩
    intro k hc
    rw [committed_congr _ st k (step_cache_wsm _ _ _ _ _)]
    exact hc
  · rw [h]
    obtain ⟨hp1, hp2, hp3, hp4⟩ := block_finished_preserves
      (step_cache st w.sync_mode resp.header_block (resp_block_record resp)
        resp.transactions_filter)
      { resp_block_record resp with additions := some [], removals := some [] }
      resp.header_block resp.transactions_filter
    refine ⟨by rw [hp1, step_cache_shut], by rw [hp2, step_cache_backup],
      by rw [hp3, step_cache_wsm], ?_⟩
    intro k hc
    refine hp4 k ?_
    rw [committed_congr _ st k (step_cache_wsm _ _ _ _ _)]
    exact hc

theorem respond_header_step_next_committed
    (gfar : BlockRecord → Option Nat → List Nat × List Nat)
    (st : WalletState) (resp : RespondHeader) (st' : WalletState)
    (msgs : List Msg) (r' : RespondHeader)
    (h : respond_header_step gfar st resp = StepOut.next st' msgs r') :
    committed st' resp.header_block.header_hash = true := by
  by_cases hsd : st.shut_down = true
  · simp [respond_header_step, hsd] at h
  · cases hw : st.wallet_state_manager with
    | none => simp [respond_header_step, hsd, hw] at h
    | some w =>
      by_cases hcm :
          (lookupA w.block_records resp.header_block.header_hash).isSome = true
      · simp [respond_header_step, hsd, hw, hcm] at h
      · by_cases hh1 : resp.header_block.height < 1
        · simp [respond_header_step, hsd, hw, hcm, hh1] at h
        · by_cases hprev : (lookupA w.block_records
              resp.header_block.prev_header_hash).isNone = true
          · simp [respond_header_step, hsd, hw, hcm, hh1, hprev] at h
          · by_cases har :
                ((gfar (resp_block_record resp)
                  resp.transactions_filter).1.length > 0 ∨
                (gfar (resp_block_record resp)
                  resp.transactions_filter).2.length > 0)
            · simp [respond_header_step, hsd, hw, hcm, hh1, hprev, har] at h
            · simp only [respond_header_step, hsd, hw, hcm, hh1, hprev, har,
                if_false, ite_false, Bool.false_eq_true, or_self] at h
              rcases hbf : block_finished
                  (step_cache st w.sync_mode resp.header_block
                    (resp_block_record resp) resp.transactions_filter)
                  { resp_block_record resp with
                    additions := some [], removals := some [] }
                  resp.header_block resp.transactions_filter with ⟨st2, d⟩
              rw [hbf] at h
              cases d with
              | none => simp at h
              | some r =>
                simp only [StepOut.next.injEq] at h
                rcases h with ⟨h1, _, _⟩
                rw [← h1]
                exact block_finished_some_committed _ _ _ _ _ _ hbf

/-- The deferred-ancestor state built by the branch of `_respond_header` whose
parent is missing: the cached insertion plus the future pointer. -/
def branchA_state (st : WalletState) (sync : Bool) (resp : RespondHeader) :
    WalletState :=
  let stc := step_cache st sync resp.header_block (resp_block_record resp)
    resp.transactions_filter
  let fut := insertA stc.future_block_hashes
    resp.header_block.prev_header_hash resp.header_block.header_hash
  { stc with future_block_hashes := fut }

/-- The message list emitted by the missing-parent branch. -/
def branchA_msgs (st : WalletState) (w : WSM) (resp : RespondHeader) :
    List Msg :=
  match lookupA w.block_records w.lca with
  | some lca_rec =>
    if (resp_block_record resp).height < lca_rec.height +
        st.short_sync_threshold ∧ w.sync_mode = false then
      [Msg.requestHeader ((resp_block_record resp).height - 1)
        (resp_block_record resp).prev_header_hash]
    else []
  | none => []

/-- The cached-only state built by the branches whose parent is present. -/
def branchB_state (st : WalletState) (sync : Bool) (resp : RespondHeader) :
    WalletState :=
  step_cache st sync resp.header_block (resp_block_record resp)
    resp.transactions_filter

/-- The record with empty additions and removals handed to `_block_finished`
by the no-interesting-coins branch (wallet_node.py lines 835-845). -/
def resp_block_record2 (resp : RespondHeader) : BlockRecord :=
  { resp_block_record resp with additions := some [], removals := some [] }

theorem branchA_state_shut (st : WalletState) (s : Bool)
    (resp : RespondHeader) :
    (branchA_state st s resp).shut_down = st.shut_down :=
  step_cache_shut st s resp.header_block (resp_block_record resp)
    resp.transactions_filter

theorem branchA_state_wsm (st : WalletState) (s : Bool)
    (resp : RespondHeader) :
    (branchA_state st s resp).wallet_state_manager =
      st.wallet_state_manager :=
  step_cache_wsm st s resp.header_block (resp_block_record resp)
    resp.transactions_filter

theorem branchA_state_idem (st : WalletState) (s : Bool)
    (resp : RespondHeader) :
    branchA_state (branchA_state st s resp) s resp =
      branchA_state st s resp := by
  simp only [branchA_state]
  rw [step_cache_set_future, step_cache_idem]
  simp [insertA_idem]

theorem branchB_state_shut (st : WalletState) (s : Bool)
    (resp : RespondHeader) :
    (branchB_state st s resp).shut_down = st.shut_down :=
  step_cache_shut st s resp.header_block (resp_block_record resp)
    resp.transactions_filter

theorem branchB_state_wsm (st : WalletState) (s : Bool)
    (resp : RespondHeader) :
    (branchB_state st s resp).wallet_state_manager =
      st.wallet_state_manager :=
  step_cache_wsm st s resp.header_block (resp_block_record resp)
    resp.transactions_filter

theorem branchB_state_backup (st : WalletState) (s : Bool)
    (resp : RespondHeader) :
    (branchB_state st s resp).backup_initialized = st.backup_initialized :=
  step_cache_backup st s resp.header_block (resp_block_record resp)
    resp.transactions_filter

theorem branchB_state_idem (st : WalletState) (s : Bool)
    (resp : RespondHeader) :
    branchB_state (branchB_state st s resp) s resp =
      branchB_state st s resp :=
  step_cache_idem st s resp.header_block (resp_block_record resp)
    resp.transactions_filter

theorem step_eq_branchA
    (gfar : BlockRecord → Option Nat → List Nat × List Nat)
    (st : WalletState) (resp : RespondHeader) (w : WSM)
    (hsd : ¬(st.shut_down = true))
    (hw : st.wallet_state_manager = some w)
    (hcm : ¬((lookupA w.block_records
      resp.header_block.header_hash).isSome = true))
    (hh1 : ¬(resp.header_block.height < 1))
    (hprev : (lookupA w.block_records
      resp.header_block.prev_header_hash).isNone = true) :
    respond_header_step gfar st resp =
      StepOut.done (branchA_state st w.sync_mode resp)
        (branchA_msgs st w resp) := by
  simp only [respond_header_step, branchA_state, branchA_msgs, hsd, hw, hcm,
    hh1, hprev, if_false, ite_false, Bool.false_eq_true, if_true, ite_true]

theorem step_eq_branchB
    (gfar : BlockRecord → Option Nat → List Nat × List Nat)
    (st : WalletState) (resp : RespondHeader) (w : WSM)
    (hsd : ¬(st.shut_down = true))
    (hw : st.wallet_state_manager = some w)
    (hcm : ¬((lookupA w.block_records
      resp.header_block.header_hash).isSome = true))
    (hh1 : ¬(resp.header_block.height < 1))
    (hprev : ¬((lookupA w.block_records
      resp.header_block.prev_header_hash).isNone = true))
    (har : ((gfar (resp_block_record resp)
      resp.transactions_filter).1.length > 0 ∨
      (gfar (resp_block_record resp)
        resp.transactions_filter).2.length > 0)) :
    respond_header_step gfar st resp =
      StepOut.done (branchB_state st w.sync_mode resp)
        [Msg.requestAdditions resp.header_block.height
          resp.header_block.header_hash
          (gfar (resp_block_record resp) resp.transactions_filter).1] := by
  simp only [respond_header_step, branchB_state, hsd, hw, hcm,
    hh1, hprev, har, if_false, ite_false, Bool.false_eq_true, if_true,
    ite_true]

theorem step_eq_branchC
    (gfar : BlockRecord → Option Nat → List Nat × List Nat)
    (st : WalletState) (resp : RespondHeader) (w : WSM)
    (hsd : ¬(st.shut_down = true))
    (hw : st.wallet_state_manager = some w)
    (hcm : ¬((lookupA w.block_records
      resp.header_block.header_hash).isSome = true))
    (hh1 : ¬(resp.header_block.height < 1))
    (hprev : ¬((lookupA w.block_records
      resp.header_block.prev_header_hash).isNone = true))
    (har : ¬((gfar (resp_block_record resp)
      resp.transactions_filter).1.length > 0 ∨
      (gfar (resp_block_record resp)
        resp.transactions_filter).2.length > 0)) :
    respond_header_step gfar st resp =
      (match block_finished (branchB_state st w.sync_mode resp)
          (resp_block_record2 resp) resp.header_block
          resp.transactions_filter with
       | (st2, none) => StepOut.done st2 []
       | (st2, some r) => StepOut.next st2 [] r) := by
  simp only [respond_header_step, branchB_state, resp_block_record2, hsd, hw,
    hcm, hh1, hprev, har, if_false, ite_false, Bool.false_eq_true, if_true,
    ite_true]

theorem respond_header_step_done_stable
    (gfar : BlockRecord → Option Nat → List Nat × List Nat)
    (st : WalletState) (resp : RespondHeader) (st' : WalletState)
    (msgs : List Msg)
    (h : respond_header_step gfar st resp = StepOut.done st' msgs) :
    ∃ m2, respond_header_step gfar st' resp = StepOut.done st' m2 := by
  by_cases hsd : st.shut_down = true
  · have hs : respond_header_step gfar st resp = StepOut.done st [] := by
      simp [respond_header_step, hsd]
    rw [hs] at h
    injection h with h1 _
    subst h1
    exact ⟨[], by simp [respond_header_step, hsd]⟩
  · cases hw : st.wallet_state_manager with
    | none =>
      have hs : respond_header_step gfar st resp = StepOut.done st [] := by
        simp [respond_header_step, hsd, hw]
      rw [hs] at h
      injection h with h1 _
      subst h1
      exact ⟨[], by simp [respond_header_step, hsd, hw]⟩
    | some w =>
      by_cases hcm : (lookupA w.block_records
          resp.header_block.header_hash).isSome = true
      · have hs : respond_header_step gfar st resp = StepOut.done st [] := by
          simp [respond_header_step, hsd, hw, hcm]
        rw [hs] at h
        injection h with h1 _
        subst h1
        exact ⟨[], by simp [respond_header_step, hsd, hw, hcm]⟩
      · by_cases hh1 : resp.header_block.height < 1
        · have hs : respond_header_step gfar st resp = StepOut.done st [] := by
            simp [respond_header_step, hsd, hw, hcm, hh1]
          rw [hs] at h
          injection h with h1 _
          subst h1
          exact ⟨[], by simp [respond_header_step, hsd, hw, hcm, hh1]⟩
        · by_cases hprev : (lookupA w.block_records
              resp.header_block.prev_header_hash).isNone = true
          · rw [step_eq_branchA gfar st resp w hsd hw hcm hh1 hprev] at h
            injection h with h1 _
            subst h1
            refine ⟨branchA_msgs (branchA_state st w.sync_mode resp) w resp,
              ?_⟩
            have hsd2 : ¬((branchA_state st w.sync_mode resp).shut_down =
                true) := by
              rw [branchA_state_shut]
              exact hsd
            have hw2 : (branchA_state st
                w.sync_mode resp).wallet_state_manager = some w := by
              rw [branchA_state_wsm]
              exact hw
            rw [step_eq_branchA gfar (branchA_state st w.sync_mode resp) resp
              w hsd2 hw2 hcm hh1 hprev, branchA_state_idem]
          · by_cases har : ((gfar (resp_block_record resp)
                resp.transactions_filter).1.length > 0 ∨
                (gfar (resp_block_record resp)
                  resp.transactions_filter).2.length > 0)
            · rw [step_eq_branchB gfar st resp w hsd hw hcm hh1 hprev har]
                at h
              injection h with h1 _
              subst h1
              refine ⟨[Msg.requestAdditions resp.header_block.height
                resp.header_block.header_hash
                (gfar (resp_block_record resp)
                  resp.transactions_filter).1], ?_⟩
              have hsd2 : ¬((branchB_state st w.sync_mode resp).shut_down =
                  true) := by
                rw [branchB_state_shut]
                exact hsd
              have hw2 : (branchB_state st
                  w.sync_mode resp).wallet_state_manager = some w := by
                rw [branchB_state_wsm]
                exact hw
              rw [step_eq_branchB gfar (branchB_state st w.sync_mode resp)
                resp w hsd2 hw2 hcm hh1 hprev har, branchB_state_idem]
            · rw [step_eq_branchC gfar st resp w hsd hw hcm hh1 hprev har]
                at h
              rcases hbf : block_finished (branchB_state st w.sync_mode resp)
                  (resp_block_record2 resp) resp.header_block
                  resp.transactions_filter with ⟨st2, d⟩
              rw [hbf] at h
              cases d with
              | some r => exact StepOut.noConfusion h
              | none =>
                injection h with h1 _
                subst h1
                by_cases hbk : st.backup_initialized = false
                · have hg : block_finished
                      (branchB_state st w.sync_mode resp)
                      (resp_block_record2 resp) resp.header_block
                      resp.transactions_filter =
                      (branchB_state st w.sync_mode resp, none) :=
                    block_finished_guard _ _ _ _
                      (by rw [branchB_state_backup]; exact hbk)
                  rw [hg] at hbf
                  injection hbf with hb1 _
                  subst hb1
                  refine ⟨[], ?_⟩
                  have hsd2 : ¬((branchB_state st
                      w.sync_mode resp).shut_down = true) := by
                    rw [branchB_state_shut]
                    exact hsd
                  have hw2 : (branchB_state st
                      w.sync_mode resp).wallet_state_manager = some w := by
                    rw [branchB_state_wsm]
                    exact hw
                  rw [step_eq_branchC gfar (branchB_state st w.sync_mode resp)
                    resp w hsd2 hw2 hcm hh1 hprev har, branchB_state_idem, hg]
                · have hbk' : st.backup_initialized = true := by
                    revert hbk
                    cases st.backup_initialized <;> simp
                  have hprev' : (lookupA w.block_records
                      resp.header_block.prev_header_hash).isSome = true := by
                    cases hpo : lookupA w.block_records
                        resp.header_block.prev_header_hash with
                    | none =>
                      rw [hpo] at hprev
                      simp at hprev
                    | some v => rfl
                  have hcm' : (lookupA w.block_records
                      resp.header_block.header_hash).isSome = false := by
                    revert hcm
                    cases (lookupA w.block_records
                      resp.header_block.header_hash).isSome <;> simp
                  have hcom : committed (block_finished
                      (branchB_state st w.sync_mode resp)
                      (resp_block_record2 resp) resp.header_block
                      resp.transactions_filter).1
                      (resp_block_record2 resp).header_hash = true :=
                    block_finished_commits _ _ _ _ w
                      (by rw [branchB_state_wsm]; exact hw)
                      (by rw [branchB_state_backup]; exact hbk') hcm' hprev'
                  rw [hbf] at hcom
                  exact ⟨[], committed_step_done gfar st2 resp hcom⟩

theorem respond_header_loop_preserves
    (gfar : BlockRecord → Option Nat → List Nat × List Nat) :
    ∀ (fuel : Nat) (st : WalletState) (resp : RespondHeader),
    ((respond_header_loop gfar fuel st resp).1.shut_down = st.shut_down) ∧
    ((respond_header_loop gfar fuel st resp).1.backup_initialized =
      st.backup_initialized) ∧
    ((respond_header_loop gfar fuel st
      resp).1.wallet_state_manager.isSome =
      st.wallet_state_manager.isSome) ∧
    (∀ k, committed st k = true →
      committed (respond_header_loop gfar fuel st resp).1 k = true) := by
  intro fuel
  induction fuel with
  | zero =>
    intro st resp
    simp [respond_header_loop]
  | succ n ih =>
    intro st resp
    obtain ⟨p1, p2, p3, p4⟩ := respond_header_step_preserves gfar st resp
    cases hstep : respond_header_step gfar st resp with
    | done st1 m1 =>
      rw [hstep] at p1 p2 p3 p4
      simp only [respond_header_loop, hstep]
      exact ⟨p1, p2, p3, p4⟩
    | next st1 m1 r1 =>
      rw [hstep] at p1 p2 p3 p4
      obtain ⟨q1, q2, q3, q4⟩ := ih st1 r1
      simp only [respond_header_loop, hstep]
      refine ⟨?_, ?_, ?_, ?_⟩
      · rw [q1]
        exact p1
      · rw [q2]
        exact p2
      · rw [q3]
        exact p3
      · intro k hk
        exact q4 k (p4 k hk)

theorem respond_header_loop_stable
    (gfar : BlockRecord → Option Nat → List Nat × List Nat) (n : Nat)
    (st : WalletState) (resp : RespondHeader) :
    ∃ m2, respond_header_step gfar
        (respond_header_loop gfar (n + 1) st resp).1 resp =
      StepOut.done (respond_header_loop gfar (n + 1) st resp).1 m2 := by
  cases hstep : respond_header_step gfar st resp with
  | done st1 m1 =>
    simp only [respond_header_loop, hstep]
    exact respond_header_step_done_stable gfar st resp st1 m1 hstep
  | next st1 m1 r1 =>
    simp only [respond_header_loop, hstep]
    have hc : committed st1 resp.header_block.header_hash = true :=
      respond_header_step_next_committed gfar st resp st1 m1 r1 hstep
    have hc2 : committed (respond_header_loop gfar n st1 r1).1
        resp.header_block.header_hash = true :=
      (respond_header_loop_preserves gfar n st1 r1).2.2.2 _ hc
    exact ⟨[], committed_step_done gfar _ resp hc2⟩

/-- C8: delivering the same `RespondHeader` twice is idempotent — processing
it a second time (with the same iteration budget) leaves the entire wallet
state, in particular `cached_blocks`, `future_block_hashes` and the set of
committed blocks, identical to the state after the first delivery;
re-insertions overwrite with identical content. -/
theorem C8_idempotent (gfar : BlockRecord → Option Nat → List Nat × List Nat)
    (fuel : Nat) (st : WalletState) (resp : RespondHeader) :
    (respond_header gfar fuel ((respond_header gfar fuel st resp).1)
      resp).1 = (respond_header gfar fuel st resp).1 := by
  unfold respond_header
  cases hw : st.wallet_state_manager with
  | none => simp [hw]
  | some w =>
    by_cases hbk : st.backup_initialized = false
    · simp [hw, hbk]
    · simp only [hw, hbk, if_false, ite_false, Bool.false_eq_true,
        Bool.true_eq_false]
      obtain ⟨q1, q2, q3, q4⟩ :=
        respond_header_loop_preserves gfar fuel st resp
      have hsome : (respond_header_loop gfar fuel st
          resp).1.wallet_state_manager.isSome = true := by
        rw [q3, hw]
        rfl
      obtain ⟨w1, hw1⟩ := Option.isSome_iff_exists.mp hsome
      have hbk1 : ¬((respond_header_loop gfar fuel st
          resp).1.backup_initialized = false) := by
        rw [q2]
        exact hbk
      simp only [hw1, hbk1, if_false, ite_false, Bool.false_eq_true,
        Bool.true_eq_false]
      cases fuel with
      | zero => simp [respond_header_loop]
      | succ n =>
        obtain ⟨m2, hm2⟩ := respond_header_loop_stable gfar n st resp
        generalize hX : (respond_header_loop gfar (n + 1) st resp).1 = X
          at hm2 ⊢
        rw [respond_header_loop, hm2]
